import Mathlib

/-
Verification development for the htmx-assistant scrape-orchestration
backend and its Node.js chat front ends.

The WSGI bootstrap (`_start_scrape_scheduler_once`) and the Express
`/ask` handlers are embedded directly from their sources.  The job
store, scheduler, dispatch layer and crawl processor are modelled from
the design document, since only their callers and documentation ship in
this tree; each such definition carries a doc comment saying so.
-/

namespace HtmxAssistant

/-! ## WSGI bootstrap (wsgi entry file, `_strtobool` / `_start_scrape_scheduler_once`) -/

/-- ASCII whitespace as stripped by Python `str.strip()` and JavaScript
`String.prototype.trim()`. -/
def isWs (c : Char) : Bool :=
  c = ' ' || c = '\t' || c = '\n' || c = '\r'

/-- Strip leading and trailing whitespace (Python `strip()`, JS `trim()`). -/
def trimWs (s : String) : String :=
  ⟨((s.data.dropWhile isWs).reverse.dropWhile isWs).reverse⟩

/-- ASCII lowercasing (Python `str.lower()`). -/
def lowerAscii (s : String) : String :=
  ⟨s.data.map Char.toLower⟩

/-- Embedding of the bootstrap helper
`def _strtobool(v): return str(v).strip().lower() in {"1","true","yes","y","on"}`. -/
def strtobool (v : String) : Bool :=
  (["1", "true", "yes", "y", "on"] : List String).contains (lowerAscii (trimWs v))

/-- Inputs that decide what `_start_scrape_scheduler_once` does in one process:
the `SCRAPE_SCHEDULER_ENABLE` environment value (absent ⇒ the code defaults it
to `"1"`), whether the `fcntl` import succeeds, and whether another process
already holds the exclusive non-blocking lock on the lock file (in which case
`flock` raises `BlockingIOError`). -/
structure WsgiEnv where
  scrapeSchedulerEnable : Option String
  fcntlAvailable : Bool
  lockHeldByOtherProcess : Bool
deriving DecidableEq

/-- Embedding of `_start_scrape_scheduler_once` as the number of
`scrape_scheduler.start()` invocations it performs: zero when the enable flag
is falsy, zero when `fcntl` is available but the lock is already held (the
`BlockingIOError` branch closes the fd and returns), and exactly one
otherwise (the `try` block calls `start()` once; a raised exception is only
logged). -/
def startScrapeSchedulerOnce (env : WsgiEnv) : Nat :=
  if strtobool (env.scrapeSchedulerEnable.getD "1") = false then 0
  else if env.fcntlAvailable && env.lockHeldByOtherProcess then 0
  else 1

/-! ## Express `/ask` handler guard (server.js and its revisions) -/

/-- Outcome of the `/ask` handler: either the early `Message is required`
warning fragment, or a rendered model reply. -/
inductive AskResult where
  | messageRequired
  | answered (reply : String)
deriving DecidableEq

/-- Response of one `/ask` request together with the number of language-model
API calls the handler issued while producing it. -/
structure AskOutcome where
  result : AskResult
  llmCalls : Nat
deriving DecidableEq

/-- Embedding of the `/ask` guard shared by every revision of the handler:
`const message = req.body.message?.trim(); if (!message) return <warning>;`
followed by the model call(s) on the trimmed message.  `message = none`
models an absent field (optional chaining yields `undefined`); an empty
trimmed string is falsy in JavaScript, so both take the warning branch
before any OpenAI or Gemini request. -/
def askHandler (message : Option String) (llm : String → String) : AskOutcome :=
  match message.map trimWs with
  | none => ⟨.messageRequired, 0⟩
  | some m => if m = "" then ⟨.messageRequired, 0⟩ else ⟨.answered (llm m), 1⟩

/-! ## Job model

Modelled from the spec: the job orchestration sources (`scraper_jobs.py`,
`scrape_scheduler.py`, `assistant_services/scraper_client.py`) are not part
of this tree; only their callers and documentation are.  The definitions in
this section follow §3–§4 of the design document. -/

/-- Modelled from the spec: the job types of §3; `scraper_jobs.py`, which
realizes them, is missing from this tree. -/
inductive JobType where
  | scrape
  | single_url_refresh
  | delete_content
  | site_delete
  | verification
deriving DecidableEq

/-- Modelled from the spec: the job lifecycle states of §3. -/
inductive JobStatus where
  | QUEUED
  | RUNNING
  | COMPLETED
  | FAILED
  | CANCELLED
deriving DecidableEq

/-- COMPLETED, FAILED and CANCELLED are the terminal states. -/
def JobStatus.isTerminal : JobStatus → Bool
  | .COMPLETED => true
  | .FAILED => true
  | .CANCELLED => true
  | _ => false

/-- Modelled from the spec: the Job record of §3; `scraper_jobs.py` and the
`scraping_jobs` collection are missing from this tree.  Timestamps are Nats,
`owner` is the claiming worker's identity, `checkpoint` the opaque progress
cursor (last-visited URL index). -/
structure Job where
  id : Nat
  mode_id : Nat
  type : JobType
  status : JobStatus
  owner : Option Nat
  created_at : Nat
  started_at : Nat
  heartbeat_at : Nat
  checkpoint : Nat
  attempt_count : Nat
deriving DecidableEq

/-- Modelled from the spec: the durable Job Store of §4.1, through which all
coordination flows. -/
structure Store where
  jobs : List Job
deriving DecidableEq

def emptyStore : Store := ⟨[]⟩

/-- Job types subject to the single-flight invariant of §3. -/
def singleFlight (t : JobType) : Bool :=
  t == .scrape || t == .verification

/-- Does `j` count as a non-terminal job of kind (m, t)? -/
def ntJob (m : Nat) (t : JobType) (j : Job) : Bool :=
  j.mode_id == m && j.type == t && !j.status.isTerminal

/-- Is some non-terminal job of kind (m, t) present in the store? -/
def hasNonTerminal (s : Store) (m : Nat) (t : JobType) : Bool :=
  s.jobs.any (ntJob m t)

/-- Number of non-terminal jobs of kind (m, t) in the store. -/
def ntCount (s : Store) (m : Nat) (t : JobType) : Nat :=
  s.jobs.countP (ntJob m t)

/-- A job id not yet used in the store. -/
def freshId (s : Store) : Nat :=
  (s.jobs.map Job.id).foldr max 0 + 1

/-- Modelled from the spec: `enqueue(mode_id, type, params)` of §4.1 — the
call is rejected/deduped while a non-terminal job of the same
(mode_id, type) already exists (the debounce window is externally
configured; the dedup guard is what the single-flight invariant of §3
requires).  Admin `trigger()` calls land here as well. -/
def enqueue (s : Store) (m : Nat) (t : JobType) (now : Nat) : Store × Option Nat :=
  if hasNonTerminal s m t then (s, none)
  else
    let j : Job := ⟨freshId s, m, t, .QUEUED, none, now, 0, 0, 0, 0⟩
    (⟨j :: s.jobs⟩, some j.id)

/-- Modelled from the spec: the single conditional update at the heart of
`claim_next` (§4.1): it succeeds, stamping RUNNING and the caller's identity,
only if the row is still QUEUED. -/
def claimAttempt (j : Job) (worker now : Nat) : Job × Bool :=
  if j.status = .QUEUED then
    ({ j with
       status := .RUNNING, owner := some worker,
       started_at := now, heartbeat_at := now }, true)
  else (j, false)

/-- Modelled from the spec: `claim_next` selects the first QUEUED job of the
store and claims it with the conditional update. -/
def claimFirst (worker now : Nat) : List Job → List Job
  | [] => []
  | j :: js =>
    if j.status = .QUEUED then (claimAttempt j worker now).1 :: js
    else j :: claimFirst worker now js

/-- Modelled from the spec: N racing `claim_next` calls on one job row
serialize into some order of atomic conditional updates (§4.1, §5); the list
of workers is that serialization order, and the returned list collects the
workers whose attempt succeeded. -/
def runClaims (j : Job) (workers : List Nat) (now : Nat) : Job × List Nat :=
  match workers with
  | [] => (j, [])
  | w :: ws =>
    let r := claimAttempt j w now
    let rest := runClaims r.1 ws now
    (rest.1, if r.2 then w :: rest.2 else rest.2)

/-- Modelled from the spec: `heartbeat(job_id, checkpoint)` of §4.1, applied
per row: only the RUNNING row with the given id is touched. -/
def heartbeatJob (jobId cp now : Nat) (j : Job) : Job :=
  if j.id = jobId ∧ j.status = .RUNNING then
    { j with heartbeat_at := now, checkpoint := cp }
  else j

/-- Modelled from the spec: `complete(job_id, result)` of §4.1, per row. -/
def completeJob (jobId : Nat) (j : Job) : Job :=
  if j.id = jobId ∧ j.status = .RUNNING then { j with status := .COMPLETED }
  else j

/-- Modelled from the spec: `fail(job_id, error, retryable)` of §4.1, per
row; transitions are monotonic, so failing stamps FAILED. -/
def failJob (jobId : Nat) (j : Job) : Job :=
  if j.id = jobId ∧ j.status = .RUNNING then { j with status := .FAILED }
  else j

/-- Modelled from the spec: cancellation (§5), per row; monotonic like the
other terminal stamps. -/
def cancelJob (jobId : Nat) (j : Job) : Job :=
  if j.id = jobId ∧ j.status = .RUNNING then { j with status := .CANCELLED }
  else j

/-- Modelled from the spec: the Scheduler's orphan check (§4.2(c)), per row:
a RUNNING job whose `heartbeat_at` is older than the liveness threshold goes
back to QUEUED with `attempt_count` incremented and `checkpoint` untouched. -/
def orphanJob (threshold now : Nat) (j : Job) : Job :=
  if j.status = .RUNNING ∧ j.heartbeat_at + threshold < now then
    { j with status := .QUEUED, attempt_count := j.attempt_count + 1 }
  else j

/-- Modelled from the spec: the operations that mutate the Job Store (§4.1,
§4.2).  `orphanA` is the Scheduler's orphan check; the others are issued by
workers or the admin trigger. -/
inductive Action where
  | enqueueA (m : Nat) (t : JobType) (now : Nat)
  | claimNextA (worker now : Nat)
  | heartbeatA (jobId cp now : Nat)
  | completeA (jobId : Nat)
  | failA (jobId : Nat)
  | cancelA (jobId : Nat)
  | orphanA (threshold now : Nat)
deriving DecidableEq

/-- One Job Store mutation. -/
def step (a : Action) (s : Store) : Store :=
  match a with
  | .enqueueA m t now => (enqueue s m t now).1
  | .claimNextA w now => ⟨claimFirst w now s.jobs⟩
  | .heartbeatA jobId cp now => ⟨s.jobs.map (heartbeatJob jobId cp now)⟩
  | .completeA jobId => ⟨s.jobs.map (completeJob jobId)⟩
  | .failA jobId => ⟨s.jobs.map (failJob jobId)⟩
  | .cancelA jobId => ⟨s.jobs.map (cancelJob jobId)⟩
  | .orphanA th now => ⟨s.jobs.map (orphanJob th now)⟩

/-- Run a sequence of Job Store mutations. -/
def run (acts : List Action) (s : Store) : Store :=
  acts.foldl (fun st a => step a st) s

/-- Status edges the state machine of §4.1 allows for one mutation: stay
put, the claim edge QUEUED→RUNNING, a terminal stamp from RUNNING, or the
single backward edge RUNNING→QUEUED, which only the Scheduler's orphan
check takes. -/
def statusEdgeOK (a : Action) (x y : JobStatus) : Prop :=
  x = y ∨
  (x = .QUEUED ∧ y = .RUNNING) ∨
  (x = .RUNNING ∧ (y = .COMPLETED ∨ y = .FAILED ∨ y = .CANCELLED)) ∨
  (x = .RUNNING ∧ y = .QUEUED ∧ ∃ th now, a = .orphanA th now)

/-! ## Content model and Crawl Processor

Modelled from the spec: `scraping_service.py` is missing from this tree;
the definitions follow §3, §4.4 and §5. -/

/-- Modelled from the spec: one ScrapedContent record of §3.
`owner_started_at` is the `started_at` of the job owning the current
version. -/
structure ContentRecord where
  text : String
  content_fingerprint : Nat
  version : Nat
  owner_started_at : Nat
  last_verified_at : Nat
deriving DecidableEq

/-- Modelled from the spec: a stable hash of the normalized page text
(§3); a simple polynomial hash over the trimmed character data. -/
def fingerprint (s : String) : Nat :=
  (trimWs s).data.foldl (fun h c => h * 131 + c.toNat) 7

/-- Modelled from the spec: the version-ordering acceptance test of §3 — a
write is accepted only if the writing job's `started_at` is not older than
the current version-owning job's `started_at`. -/
def writeAccepted : Option ContentRecord → Nat → Bool
  | none, _ => true
  | some r, jobStart => decide (r.owner_started_at ≤ jobStart)

/-- Modelled from the spec: one content write under the version-ordering
rule of §3; a rejected (stale) write leaves the record unchanged. -/
def applyWrite (cur : Option ContentRecord) (text : String) (jobStart now : Nat) :
    Option ContentRecord :=
  match cur with
  | none => some ⟨text, fingerprint text, 1, jobStart, now⟩
  | some r =>
    if writeAccepted (some r) jobStart then
      some ⟨text, fingerprint text, r.version + 1, jobStart, now⟩
    else some r

/-- Modelled from the spec: the per-mode content table keyed by normalized
URL, together with the number of semantic-index writes performed. -/
structure CrawlState where
  contents : List (String × ContentRecord)
  indexWrites : Nat
deriving DecidableEq

/-- Look a URL up in the content table. -/
def lookupContent : List (String × ContentRecord) → String → Option ContentRecord
  | [], _ => none
  | (u, r) :: rest, url => if u = url then some r else lookupContent rest url

/-- Keyed upsert into the content table (idempotent by key, §4.3). -/
def setContent : List (String × ContentRecord) → String → ContentRecord →
    List (String × ContentRecord)
  | [], url, r => [(url, r)]
  | (u, r0) :: rest, url, r =>
    if u = url then (url, r) :: rest else (u, r0) :: setContent rest url r

/-- Keyed delete from the content table (idempotent, §4.4). -/
def removeContent : List (String × ContentRecord) → String →
    List (String × ContentRecord)
  | [], _ => []
  | (u, r) :: rest, url =>
    if u = url then removeContent rest url else (u, r) :: removeContent rest url

/-- Modelled from the spec: the per-page tail of the scrape pipeline (§4.4):
compute the fingerprint of the freshly rendered text; if it differs from the
stored version and the version-ordering test passes, upsert the record and
push one semantic-index write; if it is unchanged, update only
`last_verified_at`; a stale write is rejected outright. -/
def scrapePageStep (st : CrawlState) (url text : String) (jobStart now : Nat) :
    CrawlState :=
  match lookupContent st.contents url with
  | none =>
    ⟨setContent st.contents url ⟨text, fingerprint text, 1, jobStart, now⟩,
      st.indexWrites + 1⟩
  | some r =>
    if fingerprint text = r.content_fingerprint then
      ⟨setContent st.contents url { r with last_verified_at := now }, st.indexWrites⟩
    else if writeAccepted (some r) jobStart then
      ⟨setContent st.contents url ⟨text, fingerprint text, r.version + 1, jobStart, now⟩,
        st.indexWrites + 1⟩
    else st

/-- Modelled from the spec: verification decisions of §4.4. -/
inductive Decision where
  | unchanged
  | updated
  | flagged
deriving DecidableEq

/-- Modelled from the spec: the verification decision function (§4.4):
identical hash ⇒ unchanged; hash differs but similarity at least the
threshold ⇒ updated; similarity below the threshold ⇒ flagged.  The
similarity score and threshold are externally configured Nats. -/
def verifyDecision (storedFp newFp sim threshold : Nat) : Decision :=
  if newFp = storedFp then .unchanged
  else if threshold ≤ sim then .updated
  else .flagged

/-- Modelled from the spec: a verification job over one stored page (§4.4):
re-fetch, decide, then act — unchanged touches `last_verified_at`; updated
reingests through the version-ordering write (plus one semantic-index write
on acceptance); flagged leaves the stored content untouched for the admin. -/
def applyVerification (st : CrawlState) (url newText : String)
    (sim threshold jobStart now : Nat) : CrawlState × Option Decision :=
  match lookupContent st.contents url with
  | none => (st, none)
  | some r =>
    match verifyDecision r.content_fingerprint (fingerprint newText) sim threshold with
    | .unchanged =>
      (⟨setContent st.contents url { r with last_verified_at := now },
        st.indexWrites⟩, some .unchanged)
    | .updated =>
      if writeAccepted (some r) jobStart then
        (⟨setContent st.contents url
            ⟨newText, fingerprint newText, r.version + 1, jobStart, now⟩,
          st.indexWrites + 1⟩, some .updated)
      else (st, some .updated)
    | .flagged => (st, some .flagged)

/-- A crawl page: URL and its rendered text. -/
structure Page where
  url : String
  renderedText : String
deriving DecidableEq

/-- Modelled from the spec: a crawl resumes from the first unvisited URL
after the checkpoint cursor (§4.4): the pages already covered by the
checkpoint are dropped, so a job checkpointed after page k continues at
page k+1 rather than page 1. -/
def pagesToProcess (pages : List Page) (j : Job) : List Page :=
  pages.drop j.checkpoint

/-! ## Dispatch Layer and Remote Worker Runtime

Modelled from the spec: `assistant_services/scraper_client.py` and
`services/scraper_worker/worker.py` are missing from this tree; the
definitions follow §4.3, §4.6 and §6. -/

/-- Modelled from the spec: the two dispatch back ends of §4.3. -/
inductive Backend where
  | localMode
  | remoteMode
deriving DecidableEq

/-- Modelled from the spec: static dispatch configuration
(`SCRAPER_EXECUTION_MODE`), fixed per deployment, not per job. -/
structure DispatchConfig where
  execution_mode : Backend
deriving DecidableEq

/-- Numeric tag of a job type for wire serialization. -/
def JobType.toNat : JobType → Nat
  | .scrape => 0
  | .single_url_refresh => 1
  | .delete_content => 2
  | .site_delete => 3
  | .verification => 4

/-- Parse a job-type tag from the wire. -/
def jobTypeOfNat : Nat → Option JobType
  | 0 => some .scrape
  | 1 => some .single_url_refresh
  | 2 => some .delete_content
  | 3 => some .site_delete
  | 4 => some .verification
  | _ => none

/-- Modelled from the spec: the queue message schema of §6:
`(job_id, type, mode_id, params, enqueued_at, attempt)`, one message per
delivery attempt.  Params are opaque words. -/
structure QueueMessage where
  job_id : Nat
  type : JobType
  mode_id : Nat
  params : List Nat
  enqueued_at : Nat
  attempt : Nat
deriving DecidableEq

/-- Serialize a queue message for the remote path (§4.3): header fields, a
length-prefixed params block, then the trailing fields. -/
def encodeMsg (msg : QueueMessage) : List Nat :=
  [msg.job_id, msg.type.toNat, msg.mode_id, msg.params.length] ++
    msg.params ++ [msg.enqueued_at, msg.attempt]

/-- Deserialize a queue message on the remote worker (§4.6). -/
def decodeMsg (ws : List Nat) : Option QueueMessage :=
  match ws with
  | jid :: ty :: mid :: plen :: rest =>
    match jobTypeOfNat ty with
    | none => none
    | some t =>
      match rest.drop plen with
      | [enq, att] =>
        if (rest.take plen).length = plen then
          some ⟨jid, t, mid, rest.take plen, enq, att⟩
        else none
      | _ => none
  | _ => none

/-- Modelled from the spec: the inputs that determine one job execution's
result: the rendered pages of the crawl frontier (URL and rendered text,
via the Browser Automation Pool), the sampled page's similarity score and
the configured threshold for verification, and the wall clock. -/
structure CrawlEnv where
  pages : List (String × String)
  sim : Nat
  threshold : Nat
  now : Nat
deriving DecidableEq

/-- Modelled from the spec: the Crawl Processor entry point (§4.4) — a
closed handler table over the job type, shared by both dispatch paths. -/
def processJob (t : JobType) (jobStart : Nat) (env : CrawlEnv) (st : CrawlState) :
    CrawlState :=
  match t with
  | .scrape =>
    env.pages.foldl (fun acc p => scrapePageStep acc p.1 p.2 jobStart env.now) st
  | .single_url_refresh =>
    match env.pages with
    | [] => st
    | p :: _ => scrapePageStep st p.1 p.2 jobStart env.now
  | .verification =>
    match env.pages with
    | [] => st
    | p :: _ => (applyVerification st p.1 p.2 env.sim env.threshold jobStart env.now).1
  | .delete_content =>
    match env.pages with
    | [] => st
    | p :: _ => ⟨removeContent st.contents p.1, st.indexWrites⟩
  | .site_delete => ⟨[], st.indexWrites⟩

/-- A routed job: handed to the in-process pool, or serialized onto the
external queue. -/
inductive Routed where
  | toLocal (msg : QueueMessage)
  | toRemote (wire : List Nat)
deriving DecidableEq

/-- Modelled from the spec: `submit(job)` of §4.3 routes to exactly one of
the two back ends, selected by the static configuration alone. -/
def submit (cfg : DispatchConfig) (msg : QueueMessage) : Routed :=
  match cfg.execution_mode with
  | .localMode => .toLocal msg
  | .remoteMode => .toRemote (encodeMsg msg)

/-- Which back end a routed job landed on. -/
def backendOf : Routed → Backend
  | .toLocal _ => .localMode
  | .toRemote _ => .remoteMode

/-- Modelled from the spec: executing a routed job.  The local pool runs the
Crawl Processor directly; the remote worker decodes the wire message first
(§4.6) and then invokes the same Crawl Processor entry point. -/
def execRouted (r : Routed) (jobStart : Nat) (env : CrawlEnv) (st : CrawlState) :
    Option CrawlState :=
  match r with
  | .toLocal msg => some (processJob msg.type jobStart env st)
  | .toRemote wire => (decodeMsg wire).map (fun msg => processJob msg.type jobStart env st)

end HtmxAssistant

namespace HtmxAssistant

/-- C9: the WSGI bootstrap calls `scrape_scheduler.start()` at most once per
process, never when the stripped lowercased `SCRAPE_SCHEDULER_ENABLE` value is
outside the truthy set, and never when file locking is available and another
process already holds the exclusive non-blocking lock. -/
theorem scheduler_started_at_most_once (env : WsgiEnv) :
    startScrapeSchedulerOnce env ≤ 1 ∧
    ((∃ v, env.scrapeSchedulerEnable = some v ∧ strtobool v = false) →
      startScrapeSchedulerOnce env = 0) ∧
    (env.fcntlAvailable = true → env.lockHeldByOtherProcess = true →
      startScrapeSchedulerOnce env = 0) := by
  refine ⟨?_, ?_, ?_⟩
  · unfold startScrapeSchedulerOnce
    split
    · exact Nat.zero_le 1
    · split
      · exact Nat.zero_le 1
      · exact Nat.le_refl 1
  · rintro ⟨v, hv, hfalse⟩
    unfold startScrapeSchedulerOnce
    rw [hv]
    simp [hfalse]
  · intro hf hl
    unfold startScrapeSchedulerOnce
    rw [hf, hl]
    split
    · rfl
    · rfl

/-- Witness for C9: with the enable flag set to `"off"` the scheduler is not
started. -/
theorem scheduler_started_at_most_once_witness :
    startScrapeSchedulerOnce ⟨some "off", false, false⟩ = 0 :=
  (scheduler_started_at_most_once ⟨some "off", false, false⟩).2.1
    ⟨"off", rfl, by decide⟩

/-- C10: a POST `/ask` request whose message field is absent, empty, or
whitespace-only is answered with the `Message is required` fragment and no
language-model API call is made. -/
theorem ask_empty_message_guard (message : Option String) (llm : String → String)
    (h : message = none ∨ ∃ s, message = some s ∧ trimWs s = "") :
    askHandler message llm = ⟨.messageRequired, 0⟩ := by
  rcases h with h | ⟨s, hs, htrim⟩
  · rw [h]; rfl
  · rw [hs]
    unfold askHandler
    simp [Option.map, htrim]

/-- Witness for C10: a whitespace-only message triggers the guard. -/
theorem ask_empty_message_guard_witness :
    askHandler (some "   ") (fun s => s) = ⟨.messageRequired, 0⟩ :=
  ask_empty_message_guard (some "   ") (fun s => s) (Or.inr ⟨"   ", rfl, rfl⟩)

/-! ## Content writes and the crawl pipeline -/

/-- Parsing a serialized job-type tag recovers the tag. -/
theorem jobTypeOfNat_toNat (t : JobType) : jobTypeOfNat t.toNat = some t := by
  cases t <;> rfl

/-- Deserializing a serialized queue message recovers the message. -/
theorem decodeMsg_encodeMsg (msg : QueueMessage) : decodeMsg (encodeMsg msg) = some msg := by
  rcases msg with ⟨jid, t, mid, ps, enq, att⟩
  have henc : encodeMsg ⟨jid, t, mid, ps, enq, att⟩ =
      jid :: t.toNat :: mid :: ps.length :: (ps ++ [enq, att]) := by
    simp [encodeMsg]
  rw [henc]
  simp [decodeMsg, jobTypeOfNat_toNat, List.drop_left, List.take_left]

/-- Looking up the key just upserted yields the upserted record. -/
theorem lookupContent_setContent_self (l : List (String × ContentRecord))
    (url : String) (r : ContentRecord) :
    lookupContent (setContent l url r) url = some r := by
  induction l with
  | nil => simp [setContent, lookupContent]
  | cons p rest ih =>
    rcases p with ⟨u, r0⟩
    by_cases h : u = url
    · simp [setContent, lookupContent, h]
    · simp [setContent, lookupContent, h, ih]

/-- C5: `submit` routes each job to exactly one back end, chosen by the
static configuration alone (never by the job's content), and both the local
path and the remote path — after the serialize/deserialize round trip of the
queue message — invoke the same Crawl Processor entry point on the same job,
so local and remote execution produce the same result. -/
theorem dispatch_equivalence (cfg : DispatchConfig) (msg msg2 : QueueMessage)
    (jobStart : Nat) (env : CrawlEnv) (st : CrawlState) :
    backendOf (submit cfg msg) = cfg.execution_mode ∧
    backendOf (submit cfg msg) = backendOf (submit cfg msg2) ∧
    execRouted (submit cfg msg) jobStart env st =
      some (processJob msg.type jobStart env st) := by
  rcases cfg with ⟨mode⟩
  cases mode with
  | localMode => exact ⟨rfl, rfl, rfl⟩
  | remoteMode =>
    refine ⟨rfl, rfl, ?_⟩
    show (decodeMsg (encodeMsg msg)).map (fun m => processJob m.type jobStart env st) = _
    rw [decodeMsg_encodeMsg]
    rfl

/-- C6: the Scheduler's orphan check moves a RUNNING job with a stale
heartbeat back to QUEUED, increments `attempt_count`, leaves `checkpoint`
and the identity fields unchanged, and keeps the record in the store; the
resumed crawl therefore continues after the checkpointed page instead of
restarting from the first page. -/
theorem orphan_recovery_preserves_checkpoint (th now : Nat) (j : Job)
    (hr : j.status = .RUNNING) (hstale : j.heartbeat_at + th < now) :
    (orphanJob th now j).status = .QUEUED ∧
    (orphanJob th now j).attempt_count = j.attempt_count + 1 ∧
    (orphanJob th now j).checkpoint = j.checkpoint ∧
    (orphanJob th now j).id = j.id ∧
    (orphanJob th now j).mode_id = j.mode_id ∧
    (orphanJob th now j).type = j.type ∧
    (∀ s : Store, j ∈ s.jobs →
      orphanJob th now j ∈ (step (.orphanA th now) s).jobs) ∧
    (∀ pages : List Page,
      pagesToProcess pages (orphanJob th now j) = pages.drop j.checkpoint) := by
  have hj : orphanJob th now j =
      { j with status := .QUEUED, attempt_count := j.attempt_count + 1 } := by
    unfold orphanJob
    rw [if_pos ⟨hr, hstale⟩]
  refine ⟨?_, ?_, ?_, ?_, ?_, ?_, ?_, ?_⟩
  · rw [hj]
  · rw [hj]
  · rw [hj]
  · rw [hj]
  · rw [hj]
  · rw [hj]
  · intro s hs
    exact List.mem_map_of_mem _ hs
  · intro pages
    rw [pagesToProcess, hj]

/-- Witness for C6: a job checkpointed at page 5 keeps checkpoint 5 through
orphan recovery. -/
theorem orphan_recovery_preserves_checkpoint_witness :
    (orphanJob 10 100 ⟨1, 1, .scrape, .RUNNING, some 7, 0, 3, 20, 5, 0⟩).checkpoint = 5 :=
  (orphan_recovery_preserves_checkpoint 10 100
    ⟨1, 1, .scrape, .RUNNING, some 7, 0, 3, 20, 5, 0⟩ rfl (by decide)).2.2.1

/-- C3: a content write is accepted only when the writing job's `started_at`
is not older than the current version owner's `started_at`; consequently,
when a verification job started at T1 and a scrape job started at T2 > T1
write the same key, the scrape's text and version ownership persist no
matter which write is applied first. -/
theorem content_write_version_ordering
    (r : ContentRecord) (text : String) (jobStart now : Nat)
    (cur0 : Option ContentRecord) (vText sText : String) (T1 T2 n1 n2 : Nat)
    (hT : T1 < T2) (h0 : ∀ r0, cur0 = some r0 → r0.owner_started_at ≤ T1) :
    (jobStart < r.owner_started_at →
      applyWrite (some r) text jobStart now = some r) ∧
    (∃ a, applyWrite (applyWrite cur0 vText T1 n1) sText T2 n2 = some a ∧
      a.text = sText ∧ a.owner_started_at = T2 ∧
      a.content_fingerprint = fingerprint sText) ∧
    (∃ b, applyWrite (applyWrite cur0 sText T2 n2) vText T1 n1 = some b ∧
      b.text = sText ∧ b.owner_started_at = T2 ∧
      b.content_fingerprint = fingerprint sText) := by
  have h12 : T1 ≤ T2 := Nat.le_of_lt hT
  have h21 : ¬ T2 ≤ T1 := not_le.mpr hT
  refine ⟨?_, ?_, ?_⟩
  · intro h
    have hrej : ¬ r.owner_started_at ≤ jobStart := not_le.mpr h
    simp [applyWrite, writeAccepted, hrej]
  · rcases cur0 with _ | r0
    · refine ⟨⟨sText, fingerprint sText, 1 + 1, T2, n2⟩, ?_, rfl, rfl, rfl⟩
      simp [applyWrite, writeAccepted, h12]
    · have hr0 : r0.owner_started_at ≤ T1 := h0 r0 rfl
      refine ⟨⟨sText, fingerprint sText, r0.version + 1 + 1, T2, n2⟩, ?_, rfl, rfl, rfl⟩
      simp [applyWrite, writeAccepted, hr0, h12]
  · rcases cur0 with _ | r0
    · refine ⟨⟨sText, fingerprint sText, 1, T2, n2⟩, ?_, rfl, rfl, rfl⟩
      simp [applyWrite, writeAccepted, h21]
    · have hr0 : r0.owner_started_at ≤ T1 := h0 r0 rfl
      refine ⟨⟨sText, fingerprint sText, r0.version + 1, T2, n2⟩, ?_, rfl, rfl, rfl⟩
      simp [applyWrite, writeAccepted, le_trans hr0 h12, h21]

/-- Witness for C3: a writer that started at 5 cannot overwrite a version
owned by a job that started at 10. -/
theorem content_write_version_ordering_witness :
    applyWrite (some ⟨"a", 0, 1, 10, 0⟩) "b" 5 3 = some ⟨"a", 0, 1, 10, 0⟩ :=
  (content_write_version_ordering ⟨"a", 0, 1, 10, 0⟩ "b" 5 3 none "v" "s" 1 2 7 8
    (by decide) (fun r0 h => nomatch h)).1 (by decide)

/-- C7: the verification decision over a stored page: identical hash ⇒
unchanged; hash differs and similarity at least the threshold ⇒ updated,
with the reingest routed through the version-ordering write (a stale write
changes nothing); hash differs and similarity below the threshold ⇒ flagged,
with the stored content left untouched. -/
theorem verification_decision_cases (st : CrawlState) (url newText : String)
    (sim threshold jobStart now : Nat) (r : ContentRecord)
    (hr : lookupContent st.contents url = some r) :
    (fingerprint newText = r.content_fingerprint →
      (applyVerification st url newText sim threshold jobStart now).2 =
        some .unchanged) ∧
    (fingerprint newText ≠ r.content_fingerprint → threshold ≤ sim →
      (applyVerification st url newText sim threshold jobStart now).2 =
        some .updated ∧
      (writeAccepted (some r) jobStart = false →
        (applyVerification st url newText sim threshold jobStart now).1 = st)) ∧
    (fingerprint newText ≠ r.content_fingerprint → sim < threshold →
      (applyVerification st url newText sim threshold jobStart now).2 =
        some .flagged ∧
      (applyVerification st url newText sim threshold jobStart now).1 = st) := by
  refine ⟨?_, ?_, ?_⟩
  · intro heq
    simp [applyVerification, hr, verifyDecision, heq]
  · intro hne hsim
    constructor
    · simp only [applyVerification, hr, verifyDecision, if_neg hne, if_pos hsim]
      split <;> rfl
    · intro hw
      simp [applyVerification, hr, verifyDecision, hne, hsim, hw]
  · intro hne hsim
    have hlt : ¬ threshold ≤ sim := not_le.mpr hsim
    constructor <;> simp [applyVerification, hr, verifyDecision, hne, hlt]

/-- Witness for C7: hash differs and similarity 10 is below threshold 50, so
the page is flagged and the store is untouched. -/
theorem verification_decision_cases_witness :
    (applyVerification ⟨[("u", ⟨"hello", fingerprint "hello", 1, 0, 0⟩)], 0⟩
      "u" "bye" 10 50 0 0).2 = some .flagged ∧
    (applyVerification ⟨[("u", ⟨"hello", fingerprint "hello", 1, 0, 0⟩)], 0⟩
      "u" "bye" 10 50 0 0).1 =
      ⟨[("u", ⟨"hello", fingerprint "hello", 1, 0, 0⟩)], 0⟩ :=
  (verification_decision_cases ⟨[("u", ⟨"hello", fingerprint "hello", 1, 0, 0⟩)], 0⟩
    "u" "bye" 10 50 0 0 ⟨"hello", fingerprint "hello", 1, 0, 0⟩ rfl).2.2
    (by decide) (by decide)

/-- C8: re-scraping a page whose rendered text is unchanged since the stored
version produces the same content fingerprint, performs zero semantic-index
writes and no content upsert, and refreshes only `last_verified_at`. -/
theorem rescrape_idempotent (st : CrawlState) (url text : String)
    (jobStart now : Nat) (r : ContentRecord)
    (hr : lookupContent st.contents url = some r)
    (htext : r.text = text)
    (hwf : r.content_fingerprint = fingerprint r.text) :
    fingerprint text = r.content_fingerprint ∧
    (scrapePageStep st url text jobStart now).indexWrites = st.indexWrites ∧
    (scrapePageStep st url text jobStart now).contents =
      setContent st.contents url { r with last_verified_at := now } ∧
    lookupContent (scrapePageStep st url text jobStart now).contents url =
      some { r with last_verified_at := now } := by
  have hfp : fingerprint text = r.content_fingerprint := by rw [hwf, htext]
  have hstep : scrapePageStep st url text jobStart now =
      ⟨setContent st.contents url { r with last_verified_at := now },
        st.indexWrites⟩ := by
    simp [scrapePageStep, hr, hfp]
  rw [hstep]
  exact ⟨hfp, rfl, rfl, lookupContent_setContent_self _ _ _⟩

/-- Witness for C8: re-scraping identical text keeps the index-write count at
zero. -/
theorem rescrape_idempotent_witness :
    (scrapePageStep ⟨[("u", ⟨"x", fingerprint "x", 1, 0, 0⟩)], 0⟩
      "u" "x" 4 9).indexWrites = 0 :=
  (rescrape_idempotent ⟨[("u", ⟨"x", fingerprint "x", 1, 0, 0⟩)], 0⟩ "u" "x" 4 9
    ⟨"x", fingerprint "x", 1, 0, 0⟩ rfl rfl rfl).2.1

/-! ## Claim protocol -/

/-- A conditional claim attempt on a row that is no longer QUEUED changes
nothing and reports failure, however many workers keep trying. -/
theorem runClaims_not_queued (j : Job) (ws : List Nat) (now : Nat)
    (h : j.status ≠ .QUEUED) : runClaims j ws now = (j, []) := by
  induction ws with
  | nil => rfl
  | cons w ws ih => simp [runClaims, claimAttempt, h, ih]

/-- C2: when N ≥ 1 racing `claim_next` calls serialize against one QUEUED
job, exactly one caller obtains it — the row ends RUNNING stamped with that
caller's identity and the other N−1 attempts come back empty — and the
underlying conditional update succeeds only while the row is still QUEUED. -/
theorem claim_next_exclusive (j : Job) (workers : List Nat) (now : Nat)
    (hq : j.status = .QUEUED) (hne : workers ≠ []) :
    (∃ w, w ∈ workers ∧ (runClaims j workers now).2 = [w] ∧
      (runClaims j workers now).1 =
        { j with
          status := .RUNNING, owner := some w,
          started_at := now, heartbeat_at := now }) ∧
    (∀ (k : Job) (w2 : Nat), k.status ≠ .QUEUED →
      claimAttempt k w2 now = (k, false)) := by
  constructor
  · rcases workers with _ | ⟨w, ws⟩
    · exact absurd rfl hne
    · have hatt : claimAttempt j w now =
          ({ j with
             status := .RUNNING, owner := some w,
             started_at := now, heartbeat_at := now }, true) := by
        simp [claimAttempt, hq]
      have hrest : runClaims
          { j with
            status := .RUNNING, owner := some w,
            started_at := now, heartbeat_at := now } ws now =
          ({ j with
             status := .RUNNING, owner := some w,
             started_at := now, heartbeat_at := now }, []) :=
        runClaims_not_queued _ ws now (fun hcon => JobStatus.noConfusion hcon)
      refine ⟨w, List.mem_cons_self w ws, ?_, ?_⟩
      · simp [runClaims, hatt, hrest]
      · simp [runClaims, hatt, hrest]
  · intro k w2 hk
    simp [claimAttempt, hk]

/-- Witness for C2: two workers race for one QUEUED job; exactly one claim
succeeds. -/
theorem claim_next_exclusive_witness :
    (runClaims ⟨1, 1, .scrape, .QUEUED, none, 0, 0, 0, 0, 0⟩ [7, 8] 3).2.length = 1 := by
  obtain ⟨⟨w, _, hw, _⟩, _⟩ :=
    claim_next_exclusive ⟨1, 1, .scrape, .QUEUED, none, 0, 0, 0, 0, 0⟩ [7, 8] 3
      rfl (by decide)
  rw [hw]
  rfl

/-! ## Single-flight invariant -/

/-- Per-row maps that never create non-terminality cannot increase the
non-terminal count. -/
theorem countP_le_of_map (p : Job → Bool) (g : Job → Job)
    (hg : ∀ j, p (g j) = true → p j = true) (l : List Job) :
    (l.map g).countP p ≤ l.countP p := by
  induction l with
  | nil => simp
  | cons j l ih =>
    rw [List.map_cons, List.countP_cons, List.countP_cons]
    by_cases h : p (g j) = true
    · rw [if_pos h, if_pos (hg j h)]
      exact Nat.add_le_add_right ih 1
    · rw [if_neg h]
      exact le_trans (by simpa using ih) (Nat.le_add_right _ _)

/-- Heartbeats change no row's kind or liveness. -/
theorem ntJob_heartbeatJob (m : Nat) (t : JobType) (jobId cp now : Nat) (j : Job) :
    ntJob m t (heartbeatJob jobId cp now j) = ntJob m t j := by
  unfold heartbeatJob
  split <;> rfl

/-- Orphan recovery keeps each row non-terminal exactly when it was. -/
theorem ntJob_orphanJob (m : Nat) (t : JobType) (th now : Nat) (j : Job) :
    ntJob m t (orphanJob th now j) = ntJob m t j := by
  unfold orphanJob
  split
  · rename_i h
    simp [ntJob, JobStatus.isTerminal, h.1]
  · rfl

/-- A COMPLETED stamp can only destroy non-terminality, never create it. -/
theorem ntJob_completeJob (m : Nat) (t : JobType) (jobId : Nat) (j : Job)
    (h : ntJob m t (completeJob jobId j) = true) : ntJob m t j = true := by
  unfold completeJob at h
  split at h
  · simp [ntJob, JobStatus.isTerminal] at h
  · exact h

/-- A FAILED stamp can only destroy non-terminality, never create it. -/
theorem ntJob_failJob (m : Nat) (t : JobType) (jobId : Nat) (j : Job)
    (h : ntJob m t (failJob jobId j) = true) : ntJob m t j = true := by
  unfold failJob at h
  split at h
  · simp [ntJob, JobStatus.isTerminal] at h
  · exact h

/-- A CANCELLED stamp can only destroy non-terminality, never create it. -/
theorem ntJob_cancelJob (m : Nat) (t : JobType) (jobId : Nat) (j : Job)
    (h : ntJob m t (cancelJob jobId j) = true) : ntJob m t j = true := by
  unfold cancelJob at h
  split at h
  · simp [ntJob, JobStatus.isTerminal] at h
  · exact h

/-- Claiming the first QUEUED job leaves every non-terminal count intact. -/
theorem countP_claimFirst (w now : Nat) (m : Nat) (t : JobType) (l : List Job) :
    (claimFirst w now l).countP (ntJob m t) = l.countP (ntJob m t) := by
  induction l with
  | nil => rfl
  | cons j l ih =>
    unfold claimFirst
    by_cases h : j.status = .QUEUED
    · rw [if_pos h, List.countP_cons, List.countP_cons]
      have hnt : ntJob m t (claimAttempt j w now).1 = ntJob m t j := by
        simp [claimAttempt, h, ntJob, JobStatus.isTerminal]
      rw [hnt]
    · rw [if_neg h, List.countP_cons, List.countP_cons, ih]

/-- A deduplicating enqueue keeps every non-terminal count at one or below. -/
theorem ntCount_enqueue_le (s : Store) (m : Nat) (t : JobType) (now : Nat)
    (m2 : Nat) (t2 : JobType) (hInv : ntCount s m2 t2 ≤ 1) :
    ntCount (enqueue s m t now).1 m2 t2 ≤ 1 := by
  by_cases h : hasNonTerminal s m t = true
  · unfold enqueue
    rw [if_pos h]
    exact hInv
  · have hfalse : hasNonTerminal s m t = false := by simpa using h
    have hstep : (enqueue s m t now).1 =
        ⟨⟨freshId s, m, t, .QUEUED, none, now, 0, 0, 0, 0⟩ :: s.jobs⟩ := by
      simp [enqueue, hfalse]
    rw [hstep]
    unfold ntCount at hInv ⊢
    rw [List.countP_cons]
    by_cases hnt : ntJob m2 t2 ⟨freshId s, m, t, .QUEUED, none, now, 0, 0, 0, 0⟩ = true
    · have hmt : m = m2 ∧ t = t2 := by
        simpa [ntJob, JobStatus.isTerminal] using hnt
      obtain ⟨hm, ht⟩ := hmt
      subst hm
      subst ht
      have hz : s.jobs.countP (ntJob m t) = 0 :=
        List.countP_eq_zero.mpr (by
          intro a ha
          have hna := List.any_eq_false.mp hfalse a ha
          simpa using hna)
      rw [hz, if_pos hnt]
    · rw [if_neg hnt]
      simpa using hInv

/-- No Job Store mutation raises a non-terminal count above one. -/
theorem ntCount_step_le (a : Action) (s : Store) (hInv : ∀ m t, ntCount s m t ≤ 1) :
    ∀ m t, ntCount (step a s) m t ≤ 1 := by
  intro m t
  cases a with
  | enqueueA m2 t2 now => exact ntCount_enqueue_le s m2 t2 now m t (hInv m t)
  | claimNextA w now =>
    show (claimFirst w now s.jobs).countP (ntJob m t) ≤ 1
    rw [countP_claimFirst]
    exact hInv m t
  | heartbeatA jobId cp now =>
    refine le_trans (countP_le_of_map _ _ ?_ s.jobs) (hInv m t)
    intro j hj
    rwa [ntJob_heartbeatJob] at hj
  | completeA jobId =>
    exact le_trans (countP_le_of_map _ _ (fun j hj => ntJob_completeJob m t jobId j hj) s.jobs)
      (hInv m t)
  | failA jobId =>
    exact le_trans (countP_le_of_map _ _ (fun j hj => ntJob_failJob m t jobId j hj) s.jobs)
      (hInv m t)
  | cancelA jobId =>
    exact le_trans (countP_le_of_map _ _ (fun j hj => ntJob_cancelJob m t jobId j hj) s.jobs)
      (hInv m t)
  | orphanA th now =>
    refine le_trans (countP_le_of_map _ _ ?_ s.jobs) (hInv m t)
    intro j hj
    rwa [ntJob_orphanJob] at hj

/-- Running any sequence of mutations keeps non-terminal counts at one or
below. -/
theorem ntCount_run_le (acts : List Action) (s : Store)
    (h : ∀ m t, ntCount s m t ≤ 1) :
    ∀ m t, ntCount (run acts s) m t ≤ 1 := by
  induction acts generalizing s with
  | nil => exact h
  | cons a acts ih => exact ih (step a s) (ntCount_step_le a s h)

/-- C1: along every sequence of Job Store operations from the empty store,
each mode has at most one non-terminal job of each single-flight type
(scrape, verification), and an enqueue/trigger issued while such a job
exists is deduplicated: it creates no second job and returns no id. -/
theorem single_flight_invariant (acts : List Action) (m : Nat) (t : JobType)
    (hsf : singleFlight t = true) :
    ntCount (run acts emptyStore) m t ≤ 1 ∧
    (∀ now, hasNonTerminal (run acts emptyStore) m t = true →
      enqueue (run acts emptyStore) m t now = (run acts emptyStore, none)) := by
  constructor
  · exact ntCount_run_le acts emptyStore (fun m t => by simp [ntCount, emptyStore]) m t
  · intro now h
    simp [enqueue, h]

/-- Witness for C1: after two triggers for the same mode, at most one scrape
job is non-terminal. -/
theorem single_flight_invariant_witness :
    ntCount (run [.enqueueA 1 .scrape 0, .enqueueA 1 .scrape 5] emptyStore)
      1 .scrape ≤ 1 :=
  (single_flight_invariant [.enqueueA 1 .scrape 0, .enqueueA 1 .scrape 5]
    1 .scrape (by decide)).1

/-! ## Job state machine -/

/-- Heartbeat edges: the status stays put and terminal rows are untouched. -/
theorem heartbeatJob_edge (jobId cp now : Nat) (j : Job) :
    (heartbeatJob jobId cp now j).id = j.id ∧
    statusEdgeOK (.heartbeatA jobId cp now) j.status (heartbeatJob jobId cp now j).status ∧
    (j.status.isTerminal = true → heartbeatJob jobId cp now j = j) := by
  unfold heartbeatJob
  split
  · rename_i h
    refine ⟨rfl, Or.inl rfl, ?_⟩
    intro hterm
    rw [h.2] at hterm
    simp [JobStatus.isTerminal] at hterm
  · exact ⟨rfl, Or.inl rfl, fun _ => rfl⟩

/-- Completion edges: RUNNING→COMPLETED or stay; terminal rows untouched. -/
theorem completeJob_edge (jobId : Nat) (j : Job) :
    (completeJob jobId j).id = j.id ∧
    statusEdgeOK (.completeA jobId) j.status (completeJob jobId j).status ∧
    (j.status.isTerminal = true → completeJob jobId j = j) := by
  unfold completeJob
  split
  · rename_i h
    refine ⟨rfl, Or.inr (Or.inr (Or.inl ⟨h.2, Or.inl rfl⟩)), ?_⟩
    intro hterm
    rw [h.2] at hterm
    simp [JobStatus.isTerminal] at hterm
  · exact ⟨rfl, Or.inl rfl, fun _ => rfl⟩

/-- Failure edges: RUNNING→FAILED or stay; terminal rows untouched. -/
theorem failJob_edge (jobId : Nat) (j : Job) :
    (failJob jobId j).id = j.id ∧
    statusEdgeOK (.failA jobId) j.status (failJob jobId j).status ∧
    (j.status.isTerminal = true → failJob jobId j = j) := by
  unfold failJob
  split
  · rename_i h
    refine ⟨rfl, Or.inr (Or.inr (Or.inl ⟨h.2, Or.inr (Or.inl rfl)⟩)), ?_⟩
    intro hterm
    rw [h.2] at hterm
    simp [JobStatus.isTerminal] at hterm
  · exact ⟨rfl, Or.inl rfl, fun _ => rfl⟩

/-- Cancellation edges: RUNNING→CANCELLED or stay; terminal rows untouched. -/
theorem cancelJob_edge (jobId : Nat) (j : Job) :
    (cancelJob jobId j).id = j.id ∧
    statusEdgeOK (.cancelA jobId) j.status (cancelJob jobId j).status ∧
    (j.status.isTerminal = true → cancelJob jobId j = j) := by
  unfold cancelJob
  split
  · rename_i h
    refine ⟨rfl, Or.inr (Or.inr (Or.inl ⟨h.2, Or.inr (Or.inr rfl)⟩)), ?_⟩
    intro hterm
    rw [h.2] at hterm
    simp [JobStatus.isTerminal] at hterm
  · exact ⟨rfl, Or.inl rfl, fun _ => rfl⟩

/-- Orphan-check edges: the only backward edge RUNNING→QUEUED, or stay;
terminal rows untouched. -/
theorem orphanJob_edge (th now : Nat) (j : Job) :
    (orphanJob th now j).id = j.id ∧
    statusEdgeOK (.orphanA th now) j.status (orphanJob th now j).status ∧
    (j.status.isTerminal = true → orphanJob th now j = j) := by
  unfold orphanJob
  split
  · rename_i h
    refine ⟨rfl, Or.inr (Or.inr (Or.inr ⟨h.1, rfl, th, now, rfl⟩)), ?_⟩
    intro hterm
    rw [h.1] at hterm
    simp [JobStatus.isTerminal] at hterm
  · exact ⟨rfl, Or.inl rfl, fun _ => rfl⟩

/-- Every job survives a `claim_next` pass, either untouched or claimed. -/
theorem claimFirst_mem (w now : Nat) (l : List Job) (j : Job) (hj : j ∈ l) :
    ∃ j2, j2 ∈ claimFirst w now l ∧ j2.id = j.id ∧
      (j2 = j ∨ (j.status = .QUEUED ∧ j2 = (claimAttempt j w now).1)) := by
  induction l with
  | nil => cases hj
  | cons k l ih =>
    unfold claimFirst
    by_cases hk : k.status = .QUEUED
    · rw [if_pos hk]
      rcases List.mem_cons.mp hj with heq | hmem
      · subst heq
        exact ⟨(claimAttempt j w now).1, List.mem_cons_self _ _,
          by simp [claimAttempt, hk], Or.inr ⟨hk, rfl⟩⟩
      · exact ⟨j, List.mem_cons_of_mem _ hmem, rfl, Or.inl rfl⟩
    · rw [if_neg hk]
      rcases List.mem_cons.mp hj with heq | hmem
      · subst heq
        exact ⟨j, List.mem_cons_self _ _, rfl, Or.inl rfl⟩
      · obtain ⟨j2, hm, hid, hc⟩ := ih hmem
        exact ⟨j2, List.mem_cons_of_mem _ hm, hid, hc⟩

/-- C4: each Job Store mutation moves every job along the monotonic state
machine only — stay, QUEUED→RUNNING, RUNNING→terminal, or the single
backward edge RUNNING→QUEUED taken only by the Scheduler's orphan check —
terminal jobs are never changed again, and no record is ever deleted. -/
theorem job_state_machine (s : Store) (a : Action) (j : Job) (hj : j ∈ s.jobs) :
    ∃ j2, j2 ∈ (step a s).jobs ∧ j2.id = j.id ∧
      statusEdgeOK a j.status j2.status ∧
      (j.status.isTerminal = true → j2 = j) := by
  cases a with
  | enqueueA m t now =>
    refine ⟨j, ?_, rfl, Or.inl rfl, fun _ => rfl⟩
    show j ∈ (enqueue s m t now).1.jobs
    unfold enqueue
    split
    · exact hj
    · exact List.mem_cons_of_mem _ hj
  | claimNextA w now =>
    obtain ⟨j2, hm, hid, hc⟩ := claimFirst_mem w now s.jobs j hj
    refine ⟨j2, hm, hid, ?_, ?_⟩
    · rcases hc with heq | ⟨hq, heq⟩
      · rw [heq]
        exact Or.inl rfl
      · rw [heq]
        refine Or.inr (Or.inl ⟨hq, ?_⟩)
        simp [claimAttempt, hq]
    · intro hterm
      rcases hc with heq | ⟨hq, heq⟩
      · exact heq
      · rw [hq] at hterm
        simp [JobStatus.isTerminal] at hterm
  | heartbeatA jobId cp now =>
    obtain ⟨hid, hedge, hterm⟩ := heartbeatJob_edge jobId cp now j
    exact ⟨heartbeatJob jobId cp now j, List.mem_map_of_mem _ hj, hid, hedge, hterm⟩
  | completeA jobId =>
    obtain ⟨hid, hedge, hterm⟩ := completeJob_edge jobId j
    exact ⟨completeJob jobId j, List.mem_map_of_mem _ hj, hid, hedge, hterm⟩
  | failA jobId =>
    obtain ⟨hid, hedge, hterm⟩ := failJob_edge jobId j
    exact ⟨failJob jobId j, List.mem_map_of_mem _ hj, hid, hedge, hterm⟩
  | cancelA jobId =>
    obtain ⟨hid, hedge, hterm⟩ := cancelJob_edge jobId j
    exact ⟨cancelJob jobId j, List.mem_map_of_mem _ hj, hid, hedge, hterm⟩
  | orphanA th now =>
    obtain ⟨hid, hedge, hterm⟩ := orphanJob_edge th now j
    exact ⟨orphanJob th now j, List.mem_map_of_mem _ hj, hid, hedge, hterm⟩

/-- Witness for C4: completing a RUNNING job takes an allowed forward edge. -/
theorem job_state_machine_witness :
    ∃ j2, j2 ∈ (step (.completeA 1)
        ⟨[⟨1, 1, .scrape, .RUNNING, some 7, 0, 0, 0, 0, 0⟩]⟩).jobs ∧
      j2.id = 1 ∧ statusEdgeOK (.completeA 1) .RUNNING j2.status ∧
      (JobStatus.isTerminal .RUNNING = true →
        j2 = ⟨1, 1, .scrape, .RUNNING, some 7, 0, 0, 0, 0, 0⟩) :=
  job_state_machine ⟨[⟨1, 1, .scrape, .RUNNING, some 7, 0, 0, 0, 0, 0⟩]⟩
    (.completeA 1) ⟨1, 1, .scrape, .RUNNING, some 7, 0, 0, 0, 0, 0⟩
    (List.mem_singleton.mpr rfl)

end HtmxAssistant
